import Mathlib

set_option linter.unusedVariables false

/-!
Shallow embedding of the freeIPA `ipalib` core (repository `xlammertink/freeipa`,
source unit `ipalib/__init__.py`): the environment store, the plugin registry
lifecycle, namespaces, the command parameter pipeline, and the `create_api`
constructor. The modules `ipalib.config`, `ipalib.plugable` and
`ipalib.frontend` are referenced by the source unit (its tutorial doctests
exercise them) but are not part of the source tree, so their behaviour is
modelled from the specification, as marked on each definition.
-/

/-- View of an `Except` value as a sum, used to decide equality. -/
def exceptToSum {ε α : Type} : Except ε α → ε ⊕ α
  | .error e => .inl e
  | .ok a => .inr a

instance {ε α : Type} [DecidableEq ε] [DecidableEq α] : DecidableEq (Except ε α) :=
  fun a b =>
    decidable_of_iff (exceptToSum a = exceptToSum b)
      (by cases a <;> cases b <;> simp [exceptToSum])

/-- Scalar configuration and parameter values: text, integer, boolean. -/
inductive Value where
  | vstr (s : String)
  | vint (n : Int)
  | vbool (b : Bool)
deriving DecidableEq, Repr

/-- Modelled from the spec: `config.Env` (module `ipalib.config`, missing from
the source tree) — an ordered key/value store with first-one-wins write
semantics and an explicit freeze point, after which all writes fail. -/
structure Env where
  entries : List (String × Value)
  frozen : Bool
deriving DecidableEq, Repr

def Env.empty : Env := ⟨[], false⟩

/-- Read a key: the value of the first (hence only) entry with that key. -/
def Env.get (e : Env) (k : String) : Option Value :=
  (e.entries.find? (fun x => x.1 == k)).map (fun x => x.2)

/-- Membership test for a key. -/
def Env.contains (e : Env) (k : String) : Bool :=
  e.entries.any (fun x => x.1 == k)

inductive EnvError where
  | FrozenStateError
deriving DecidableEq, Repr

/-- Modelled from the spec: writing to the store. After freeze every write
fails with `FrozenStateError`; before freeze, a write to an already-set key is
a no-op (first-one-wins), and a write to a fresh key appends it. -/
def Env.set (e : Env) (k : String) (v : Value) : Except EnvError Env :=
  if e.frozen then .error .FrozenStateError
  else if e.contains k then .ok e
  else .ok ⟨e.entries ++ [(k, v)], e.frozen⟩

/-- Modelled from the spec: the explicit freeze point. -/
def Env.freeze (e : Env) : Env := ⟨e.entries, true⟩

/-- Modelled from the spec: `plugable.NameSpace` — an immutable name-indexed
container built once from a finite entry set, optionally sorted by name at
construction. -/
structure NameSpace (α : Type) where
  members : List (String × α)
deriving DecidableEq, Repr

/-- Insertion step for name-sorted construction. -/
def insertByName {α : Type} (x : String × α) : List (String × α) → List (String × α)
  | [] => [x]
  | y :: ys => if x.1 < y.1 then x :: y :: ys else y :: insertByName x ys

/-- Name-lexicographic insertion sort, used when a namespace is built sorted. -/
def sortByName {α : Type} : List (String × α) → List (String × α)
  | [] => []
  | x :: xs => insertByName x (sortByName xs)

/-- Modelled from the spec: building a namespace fixes its iteration order at
construction — insertion order, or lexicographic when `sort` is true. -/
def NameSpace.build {α : Type} (entries : List (String × α)) (sort : Bool) : NameSpace α :=
  ⟨if sort then sortByName entries else entries⟩

inductive NSError where
  | NotFoundError
deriving DecidableEq, Repr

/-- Lookup by name; fails with `NotFoundError` when the name is absent. -/
def NameSpace.lookup {α : Type} (ns : NameSpace α) (n : String) : Except NSError α :=
  match ns.members.find? (fun x => x.1 == n) with
  | some x => .ok x.2
  | none => .error .NotFoundError

/-- Membership test by name. -/
def NameSpace.contains {α : Type} (ns : NameSpace α) (n : String) : Bool :=
  ns.members.any (fun x => x.1 == n)

/-- Number of entries. -/
def NameSpace.count {α : Type} (ns : NameSpace α) : Nat :=
  ns.members.length

/-- Iterator state over a namespace: the remaining entries. -/
structure NSIter (α : Type) where
  remaining : List (String × α)
deriving DecidableEq, Repr

/-- Start a fresh iteration (each call restarts from the full entry set). -/
def NameSpace.iter {α : Type} (ns : NameSpace α) : NSIter α := ⟨ns.members⟩

/-- One iteration step: the next entry and the advanced iterator, if any. -/
def NSIter.next {α : Type} : NSIter α → Option ((String × α) × NSIter α)
  | ⟨[]⟩ => none
  | ⟨x :: rest⟩ => some (x, ⟨rest⟩)

/-- Run an iterator to exhaustion, collecting the sequence it yields. -/
def NSIter.run {α : Type} : NSIter α → List (String × α)
  | ⟨[]⟩ => []
  | ⟨x :: rest⟩ => x :: NSIter.run ⟨rest⟩

/-- Modelled from the spec: a registered plugin class — its derived name, its
declared category (base type), and whether its instantiation/setup during
finalize succeeds (the spec only distinguishes success from failure). -/
structure PluginClass where
  name : String
  category : String
  setupOk : Bool
deriving DecidableEq, Repr

/-- Modelled from the spec: the one instance constructed per registered class
during finalize. -/
structure Plugin where
  name : String
  category : String
deriving DecidableEq, Repr

/-- Modelled from the spec: registry lifecycle states — `OPEN` accepts
registrations, `FINALIZED` rejects them and has namespaces available. -/
inductive RegState where
  | opened
  | finalized
deriving DecidableEq, Repr

inductive RegError where
  | LifecycleError
  | DuplicateNameError
  | PluginInitError (className : String)
deriving DecidableEq, Repr

/-- Modelled from the spec: `plugable.API` — the registry holding the allowed
categories, the registered classes in registration order, the environment
store, the lifecycle state, and the per-category namespaces built at
finalize. -/
structure Registry where
  categories : List String
  registered : List PluginClass
  env : Env
  state : RegState
  namespaces : List (String × NameSpace Plugin)
deriving DecidableEq, Repr

/-- Modelled from the spec: `register(class)` — fails with `LifecycleError`
after finalize, with `DuplicateNameError` on a colliding derived name within
the same category; otherwise stores the class (no instantiation yet). -/
def Registry.register (r : Registry) (c : PluginClass) : Except RegError Registry :=
  if r.state = .finalized then .error .LifecycleError
  else if r.registered.any (fun d => d.category == c.category && d.name == c.name) then
    .error .DuplicateNameError
  else .ok { r with registered := r.registered ++ [c] }

/-- Modelled from the spec: instantiate every registered class in order; a
setup failure aborts with `PluginInitError` identifying the offending class. -/
def instantiateAll : List PluginClass → Except RegError (List Plugin)
  | [] => .ok []
  | c :: rest =>
    if c.setupOk then
      match instantiateAll rest with
      | .ok ps => .ok ({ name := c.name, category := c.category } :: ps)
      | .error e => .error e
    else .error (.PluginInitError c.name)

/-- Group instances by category and build one namespace per category. -/
def buildNamespaces (cats : List String) (ps : List Plugin) :
    List (String × NameSpace Plugin) :=
  cats.map (fun cat =>
    (cat, NameSpace.build ((ps.filter (fun p => p.category == cat)).map
      (fun p => (p.name, p))) false))

/-- Modelled from the spec: `finalize()` — fails with `LifecycleError` when
already finalized; otherwise instantiates every registered class (any setup
failure aborts the whole finalize with `PluginInitError`), freezes the
environment store, builds one namespace per category, and transitions to
`FINALIZED`. All-or-nothing: on failure no new state is produced. -/
def Registry.finalize (r : Registry) : Except RegError Registry :=
  if r.state = .finalized then .error .LifecycleError
  else
    match instantiateAll r.registered with
    | .error e => .error e
    | .ok ps =>
      .ok { r with
        env := r.env.freeze
        state := .finalized
        namespaces := buildNamespaces r.categories ps }

/-- Semantic types a parameter can declare (text, integer-from-text, bool). -/
inductive PType where
  | tstr
  | tint
  | tbool
deriving DecidableEq, Repr

/-- Whitespace recognizer used when trimming textual integer input. -/
def isSpaceChar (c : Char) : Bool :=
  c = ' ' || c = '\t' || c = '\n' || c = '\r'

/-- Strip leading and trailing whitespace from a character list. -/
def trimChars (cs : List Char) : List Char :=
  ((cs.dropWhile isSpaceChar).reverse.dropWhile isSpaceChar).reverse

/-- Decimal digit value of a character, if it is a digit. -/
def digitVal (c : Char) : Option Nat :=
  if '0' ≤ c ∧ c ≤ '9' then some (c.toNat - 48) else none

/-- Accumulate decimal digits; any non-digit makes the parse fail. -/
def parseDigitsAux : List Char → Nat → Option Nat
  | [], acc => some acc
  | c :: cs, acc =>
    match digitVal c with
    | some d => parseDigitsAux cs (acc * 10 + d)
    | none => none

/-- Parse an optionally negated decimal integer from characters. -/
def parseIntChars : List Char → Option Int
  | [] => none
  | '-' :: rest =>
    if rest.isEmpty then none
    else (parseDigitsAux rest 0).map (fun n => -(n : Int))
  | cs => (parseDigitsAux cs 0).map (fun n => (n : Int))

/-- Integer-from-text conversion: surrounding whitespace is accepted, as in
the tutorial doctest converting `" 1000  "` to `1000`. -/
def parseIntText (s : String) : Option Int :=
  parseIntChars (trimChars s.data)

/-- Modelled from the spec: coercion of a value to a declared semantic type;
`none` signals a conversion failure. -/
def convertValue : PType → Value → Option Value
  | .tstr, .vstr s => some (.vstr s)
  | .tint, .vint n => some (.vint n)
  | .tint, .vstr s => (parseIntText s).map .vint
  | .tbool, .vbool b => some (.vbool b)
  | _, _ => none

/-- Modelled from the spec: `frontend.Param` — a declarative descriptor of one
named value: name, required flag, semantic type, optional normalization,
optional static default, and optional default-derivation (its dependency
names plus the derivation function over their resolved values). -/
structure Param where
  name : String
  required : Bool
  ptype : PType
  normalize : Option (Value → Value)
  default : Option Value
  default_from : Option (List String × (List Value → Option Value))

/-- A plain optional parameter of text type with no extras. -/
def Param.plain (n : String) : Param :=
  { name := n, required := false, ptype := .tstr, normalize := none,
    default := none, default_from := none }

/-- Apply a parameter's normalization function, if declared. -/
def Param.applyNorm (p : Param) (v : Value) : Value :=
  match p.normalize with
  | some f => f v
  | none => v

inductive PipeError where
  | CollisionError (p : String)
  | NormalizationError (p : String)
  | ConversionError (p : String)
  | DefaultResolutionError (p : String)
  | RequiredParameterError (p : String)
deriving DecidableEq, Repr

/-- Look up a supplied value by parameter name. -/
def lookupKw (kw : List (String × Value)) (k : String) : Option Value :=
  (kw.find? (fun x => x.1 == k)).map (fun x => x.2)

/-- Resolve every dependency name, or `none` when one is unresolved. -/
def lookupAll (kw : List (String × Value)) : List String → Option (List Value)
  | [] => some []
  | k :: ks =>
    match lookupKw kw k with
    | some v =>
      match lookupAll kw ks with
      | some vs => some (v :: vs)
      | none => none
    | none => none

/-- Modelled from the spec: default resolution for one parameter — a static
default is used as declared; otherwise a declared derivation is invoked on
the already-resolved values of its dependencies (an unresolved dependency is
a `DefaultResolutionError`) and its result passes through the parameter's
normalization; otherwise the parameter stays unset (`none`). -/
def Param.computeDefault (p : Param) (kw : List (String × Value)) :
    Except PipeError (Option Value) :=
  match p.default with
  | some d => .ok (some d)
  | none =>
    match p.default_from with
    | some df =>
      match lookupAll kw df.1 with
      | some vals =>
        match df.2 vals with
        | some d => .ok (some (p.applyNorm d))
        | none => .ok none
      | none => .error (.DefaultResolutionError p.name)
    | none => .ok none

/-- Modelled from the spec: `frontend.Command` — its declared positional
parameters (in order), its named options, and its local-execution and
remote-forwarding entry points over the resolved values. -/
structure Command where
  name : String
  args : List Param
  options : List Param
  execute : List (String × Value) → Value
  forward : List (String × Value) → Value

/-- The merged, ordered, name-unique parameter collection. -/
def Command.params (c : Command) : List Param :=
  c.args ++ c.options

/-- Find a declared parameter by name. -/
def Command.findParam (c : Command) (k : String) : Option Param :=
  c.params.find? (fun p => p.name == k)

/-- Modelled from the spec: merge — positional values map onto the first N
parameter names in declaration order; supplying one of those names again by
keyword is a `CollisionError`. -/
def Command.mergeKw (c : Command) (pos : List Value)
    (named : List (String × Value)) : Except PipeError (List (String × Value)) :=
  let posNames := (c.params.take pos.length).map Param.name
  match named.find? (fun x => posNames.contains x.1) with
  | some x => .error (.CollisionError x.1)
  | none => .ok (posNames.zip pos ++ named)

/-- Modelled from the spec: normalization — each supplied value is replaced by
its parameter's normalization output, when one is declared. -/
def Command.normalizeKw (c : Command) (kw : List (String × Value)) :
    List (String × Value) :=
  kw.map (fun x =>
    match c.findParam x.1 with
    | some p => (x.1, p.applyNorm x.2)
    | none => x)

/-- Modelled from the spec: conversion — each supplied value is coerced to its
parameter's declared semantic type; failure is a `ConversionError` naming the
parameter. -/
def Command.convertKw (c : Command) : List (String × Value) →
    Except PipeError (List (String × Value))
  | [] => .ok []
  | x :: rest =>
    match c.findParam x.1 with
    | some p =>
      match convertValue p.ptype x.2 with
      | some w =>
        match c.convertKw rest with
        | .ok ws => .ok ((x.1, w) :: ws)
        | .error e => .error e
      | none => .error (.ConversionError x.1)
    | none =>
      match c.convertKw rest with
      | .ok ws => .ok (x :: ws)
      | .error e => .error e

/-- Modelled from the spec: default resolution over the parameter collection
in declaration order; each parameter without a supplied value may contribute
a default, which becomes visible to later derivations. -/
def computeDefaults : List Param → List (String × Value) →
    Except PipeError (List (String × Value))
  | [], _ => .ok []
  | p :: rest, kw =>
    if (lookupKw kw p.name).isSome then computeDefaults rest kw
    else
      match p.computeDefault kw with
      | .error e => .error e
      | .ok none => computeDefaults rest kw
      | .ok (some d) =>
        match computeDefaults rest (kw ++ [(p.name, d)]) with
        | .ok ds => .ok ((p.name, d) :: ds)
        | .error e => .error e

/-- Modelled from the spec (and the `create_player` doctest): the defaults
computed for the parameters left unset by the supplied values. -/
def Command.get_default (c : Command) (kw : List (String × Value)) :
    Except PipeError (List (String × Value)) :=
  computeDefaults c.params kw

/-- Modelled from the spec: validation — a required parameter still unset
after default resolution is a `RequiredParameterError` naming it. -/
def Command.validateKw (c : Command) (kw : List (String × Value)) :
    Except PipeError Unit :=
  match c.params.find? (fun p => p.required && (lookupKw kw p.name).isNone) with
  | some p => .error (.RequiredParameterError p.name)
  | none => .ok ()

/-- Observable events of one command invocation, in order: validation
completed, the execution-context flag was read, one dispatch path ran. -/
inductive Event where
  | validated
  | readFlag (b : Bool)
  | executed
  | forwarded
deriving DecidableEq, Repr

/-- Modelled from the spec: `frontend.Command.__call__`/`run` — the per-call
pipeline merge → normalize → convert → default resolution → validate, then a
single dispatch on the `in_server` execution-context flag read from the
environment store: local `execute` when true, `forward` otherwise. The event
trace records validation, the flag read and the path taken. -/
def Command.call (c : Command) (env : Env) (pos : List Value)
    (named : List (String × Value)) : Except PipeError Value × List Event :=
  match c.mergeKw pos named with
  | .error e => (.error e, [])
  | .ok kw0 =>
    match c.convertKw (c.normalizeKw kw0) with
    | .error e => (.error e, [])
    | .ok kw2 =>
      match c.get_default kw2 with
      | .error e => (.error e, [])
      | .ok defs =>
        match c.validateKw (kw2 ++ defs) with
        | .error e => (.error e, [])
        | .ok _ =>
          if env.get "in_server" = some (.vbool true) then
            (.ok (c.execute (kw2 ++ defs)), [.validated, .readFlag true, .executed])
          else
            (.ok (c.forward (kw2 ++ defs)), [.validated, .readFlag false, .forwarded])

/-- The seven base plugin classes accepted by the standard API instance, in
the order they are passed to `plugable.API` in `create_api`. -/
def baseCategories : List String :=
  ["Command", "Object", "Method", "Property", "Application", "Backend", "Context"]

/-- From the source (`ipalib/__init__.py`, `create_api`): construct a fresh
standard `plugable.API` instance allowing the seven base classes, and set the
environment key `mode` to the given argument when it is not `None`. The
`plugable.API` constructor itself (fresh empty open registry) is modelled
from the spec. -/
def create_api (mode : Option String) : Registry :=
  let api : Registry :=
    { categories := baseCategories, registered := [], env := Env.empty,
      state := .opened, namespaces := [] }
  match mode with
  | some m =>
    match api.env.set "mode" (.vstr m) with
    | .ok e => { api with env := e }
    | .error _ => api
  | none => api

/-- From the source: the default argument of `create_api` is `'dummy'`. -/
def create_api_default : Registry := create_api (some "dummy")

/-- From the source: the module-level singleton is created with `mode=None`. -/
def api : Registry := create_api none

/-- Lowercase a string character by character. -/
def lowercase (s : String) : String :=
  String.mk (s.data.map Char.toLower)

/-- Lowercase normalization from the `create_player` doctest. -/
def lowercaseV : Value → Value
  | .vstr s => .vstr (lowercase s)
  | v => v

/-- Derivation from the `create_player` doctest: first letter of `first` plus
`last`. -/
def nickFrom : List Value → Option Value
  | [.vstr f, .vstr l] => some (.vstr (f.take 1 ++ l))
  | _ => none

def pNick : Param :=
  { name := "nick", required := false, ptype := .tstr,
    normalize := some lowercaseV, default := none,
    default_from := some (["first", "last"], nickFrom) }

def pPoints : Param :=
  { name := "points", required := false, ptype := .tint,
    normalize := none, default := some (.vint 0), default_from := none }

/-- The `create_player` command from the tutorial doctest: options `first`,
`last`, `nick` (lowercased, derived from `first`/`last`) and `points`
(integer, default `0`). -/
def create_player : Command :=
  { name := "create_player", args := [],
    options := [Param.plain "first", Param.plain "last", pNick, pPoints],
    execute := fun _ => .vstr "", forward := fun _ => .vstr "" }

/-- The forwarding-vs-execution `my_command` from the tutorial doctest. -/
def my_command : Command :=
  { name := "my_command", args := [], options := [],
    execute := fun _ => .vstr "in_server=True; execute() was called.",
    forward := fun _ => .vstr "in_server=False; forward() was called." }

def envInServer : Env := ⟨[("in_server", .vbool true)], false⟩

def envInClient : Env := ⟨[("in_server", .vbool false)], false⟩

example : create_player.convertKw [("points", .vstr " 1000  ")] =
    .ok [("points", .vint 1000)] := by decide

example : create_player.normalizeKw [("nick", .vstr "NickName")] =
    [("nick", .vstr "nickname")] := by decide

example : create_player.get_default
    [("first", .vstr "Jason"), ("last", .vstr "DeRose")] =
    .ok [("nick", .vstr "jderose"), ("points", .vint 0)] := by decide

example : my_command.call envInServer [] [] =
    (.ok (.vstr "in_server=True; execute() was called."),
     [.validated, .readFlag true, .executed]) := rfl

example : my_command.call envInClient [] [] =
    (.ok (.vstr "in_server=False; forward() was called."),
     [.validated, .readFlag false, .forwarded]) := rfl

/-- A small registry used as a concrete witness input: one command class. -/
def regSample : Registry :=
  { categories := ["Command"],
    registered := [{ name := "motd", category := "Command", setupOk := true }],
    env := ⟨[("in_server", .vbool true)], false⟩,
    state := .opened, namespaces := [] }

/-- The registry obtained by finalizing `regSample`. -/
def regSampleFinal : Registry :=
  { categories := ["Command"],
    registered := [{ name := "motd", category := "Command", setupOk := true }],
    env := ⟨[("in_server", .vbool true)], true⟩,
    state := .finalized,
    namespaces :=
      [("Command", ⟨[("motd", { name := "motd", category := "Command" })]⟩)] }

example : regSample.finalize = .ok regSampleFinal := by decide

theorem lookupKw_eq_none_iff (kw : List (String × Value)) (k : String) :
    lookupKw kw k = none ↔ ∀ x ∈ kw, x.1 ≠ k := by
  simp [lookupKw, List.find?_eq_none]

theorem NSIter_run_mk {α : Type} (l : List (String × α)) : NSIter.run ⟨l⟩ = l := by
  induction l with
  | nil => simp [NSIter.run]
  | cons x xs ih => simpa [NSIter.run] using ih

theorem finalize_ok_shape (r r' : Registry) (h : r.finalize = .ok r') :
    ∃ ps, instantiateAll r.registered = .ok ps ∧
      r' = { r with env := r.env.freeze, state := .finalized,
                    namespaces := buildNamespaces r.categories ps } := by
  unfold Registry.finalize at h
  by_cases hs : r.state = .finalized
  · simp [hs] at h
  · rw [if_neg hs] at h
    cases hins : instantiateAll r.registered with
    | error e => rw [hins] at h; exact absurd h (by simp)
    | ok ps =>
      rw [hins] at h
      refine ⟨ps, rfl, ?_⟩
      exact (Except.ok.inj h).symm

/-- C3: before freeze, setting a fresh key `k` to `v1` stores `v1`, and every
later set of `k` (to any value) is a no-op leaving the store unchanged, so
the stored value of `k` stays `v1`. -/
theorem env_first_one_wins (e : Env) (k : String) (v1 : Value)
    (hf : e.frozen = false) (hk : e.contains k = false) :
    ∃ e1 : Env, e.set k v1 = .ok e1 ∧ e1.get k = some v1 ∧
      ∀ v2 : Value, e1.set k v2 = .ok e1 := by
  have hnone : e.entries.find? (fun x => x.1 == k) = none := by
    rw [List.find?_eq_none]
    intro x hx
    simp only [Env.contains, List.any_eq_false] at hk
    exact hk x hx
  refine ⟨⟨e.entries ++ [(k, v1)], e.frozen⟩, ?_, ?_, ?_⟩
  · simp [Env.set, hf, hk]
  · simp [Env.get, List.find?_append, hnone]
  · intro v2
    simp [Env.set, hf, Env.contains, List.any_append]

/-- C3 witness: on the empty store, setting `mode` to `'dummy'` and then to
`'production'` leaves the stored value `'dummy'`. -/
theorem env_first_one_wins_witness :
    Env.empty.frozen = false ∧ Env.empty.contains "mode" = false ∧
    ∃ e1 : Env, Env.empty.set "mode" (.vstr "dummy") = .ok e1 ∧
      e1.get "mode" = some (.vstr "dummy") ∧
      ∀ v2 : Value, e1.set "mode" v2 = .ok e1 :=
  ⟨rfl, rfl, env_first_one_wins Env.empty "mode" (.vstr "dummy") rfl rfl⟩

/-- C8: after a successful finalize the environment store is frozen — every
write to any key fails with `FrozenStateError`, while reads return exactly
what they returned before the freeze. -/
theorem env_frozen_after_finalize (r r' : Registry) (h : r.finalize = .ok r')
    (k : String) (v : Value) :
    r'.env.set k v = .error .FrozenStateError ∧ r'.env.get k = r.env.get k := by
  obtain ⟨ps, hins, hr'⟩ := finalize_ok_shape r r' h
  subst hr'
  exact ⟨by simp [Env.set, Env.freeze], by simp [Env.get, Env.freeze]⟩

/-- C8 witness: finalizing `regSample` freezes its store — writing `mode`
fails with `FrozenStateError`, reading `in_server` is unchanged. -/
theorem env_frozen_after_finalize_witness :
    regSample.finalize = .ok regSampleFinal ∧
    regSampleFinal.env.set "mode" (.vstr "dummy") = .error .FrozenStateError ∧
    regSampleFinal.env.get "in_server" = regSample.env.get "in_server" :=
  ⟨by decide,
   (env_frozen_after_finalize regSample regSampleFinal (by decide) "mode"
     (.vstr "dummy")).1,
   (env_frozen_after_finalize regSample regSampleFinal (by decide) "in_server"
     (.vstr "dummy")).2⟩

/-- C5: once a registry has been finalized, finalizing it again fails with
`LifecycleError` and registering any class fails with `LifecycleError`: the
`OPEN` to `FINALIZED` transition is one-way and happens at most once. -/
theorem lifecycle_one_way (r r' : Registry) (h : r.finalize = .ok r') :
    r'.finalize = .error .LifecycleError ∧
    ∀ c : PluginClass, r'.register c = .error .LifecycleError := by
  obtain ⟨ps, hins, hr'⟩ := finalize_ok_shape r r' h
  subst hr'
  exact ⟨by simp [Registry.finalize], fun c => by simp [Registry.register]⟩

/-- C5 witness: finalizing `regSample` twice fails with `LifecycleError`, as
does registering a further class afterwards. -/
theorem lifecycle_one_way_witness :
    regSample.finalize = .ok regSampleFinal ∧
    regSampleFinal.finalize = .error .LifecycleError ∧
    regSampleFinal.register { name := "x", category := "Command", setupOk := true } =
      .error .LifecycleError :=
  ⟨by decide,
   (lifecycle_one_way regSample regSampleFinal (by decide)).1,
   (lifecycle_one_way regSample regSampleFinal (by decide)).2 _⟩

/-- C9: namespace iteration is restartable and order-stable (two runs yield
the same sequence, namely the fixed member list), lookup of an absent name
fails with `NotFoundError`, membership and lookup of a present name agree,
and the count matches the iteration sequence length. -/
theorem namespace_iteration_stable_and_consistent (α : Type) (ns : NameSpace α)
    (n : String) :
    ns.iter.run = ns.iter.run ∧
    ns.iter.run = ns.members ∧
    (ns.lookup n = .error .NotFoundError ↔ ns.contains n = false) ∧
    (ns.contains n = true ↔ ∃ a, ns.lookup n = .ok a) ∧
    ns.count = ns.iter.run.length := by
  have hrun : ns.iter.run = ns.members := NSIter_run_mk ns.members
  refine ⟨rfl, hrun, ?_, ?_, ?_⟩
  · cases hf : ns.members.find? (fun x => x.1 == n) with
    | none =>
      simp only [NameSpace.lookup, hf]
      have : ns.contains n = false := by
        simp only [NameSpace.contains, List.any_eq_false]
        intro x hx
        exact List.find?_eq_none.mp hf x hx
      simp [this]
    | some x =>
      simp only [NameSpace.lookup, hf]
      have : ns.contains n = true := by
        simp only [NameSpace.contains, List.any_eq_true]
        have hpx := List.find?_some hf
        exact ⟨x, List.mem_of_find?_eq_some hf, by simpa using hpx⟩
      simp [this]
  · cases hf : ns.members.find? (fun x => x.1 == n) with
    | none =>
      have : ns.contains n = false := by
        simp only [NameSpace.contains, List.any_eq_false]
        intro x hx
        exact List.find?_eq_none.mp hf x hx
      simp [NameSpace.lookup, hf, this]
    | some x =>
      have : ns.contains n = true := by
        simp only [NameSpace.contains, List.any_eq_true]
        have hpx := List.find?_some hf
        exact ⟨x, List.mem_of_find?_eq_some hf, by simpa using hpx⟩
      simp [NameSpace.lookup, hf, this]
  · rw [hrun]; rfl

theorem instantiateAll_error_of_fail (l : List PluginClass)
    (hfail : ∃ c ∈ l, c.setupOk = false) :
    ∃ name, instantiateAll l = .error (.PluginInitError name) ∧
      ∃ c ∈ l, c.name = name ∧ c.setupOk = false := by
  induction l with
  | nil => simp at hfail
  | cons c rest ih =>
    by_cases hc : c.setupOk = true
    · obtain ⟨d, hd, hds⟩ := hfail
      rcases List.mem_cons.mp hd with rfl | hdr
      · rw [hc] at hds; exact absurd hds (by simp)
      · obtain ⟨name, herr, d', hd', hrest⟩ := ih ⟨d, hdr, hds⟩
        refine ⟨name, ?_, d', List.mem_cons_of_mem _ hd', hrest⟩
        simp [instantiateAll, hc, herr]
    · refine ⟨c.name, ?_, c, List.mem_cons_self _ _, rfl, by simpa using hc⟩
      simp [instantiateAll, hc]

/-- C4: when any registered class has a failing setup, the whole finalize
fails with a `PluginInitError` identifying a failing registered class; and a
successful finalize builds a namespace for every category — finalize is
all-or-nothing, never partially done. -/
theorem finalize_all_or_nothing (r : Registry) (hs : r.state = .opened) :
    ((∃ c ∈ r.registered, c.setupOk = false) →
      ∃ name, r.finalize = .error (.PluginInitError name) ∧
        ∃ c ∈ r.registered, c.name = name ∧ c.setupOk = false) ∧
    (∀ r', r.finalize = .ok r' →
      ∀ cat ∈ r.categories, ∃ ns, (cat, ns) ∈ r'.namespaces) := by
  constructor
  · intro hfail
    obtain ⟨name, herr, hex⟩ := instantiateAll_error_of_fail r.registered hfail
    refine ⟨name, ?_, hex⟩
    unfold Registry.finalize
    rw [if_neg (by simp [hs]), herr]
  · intro r' h cat hcat
    obtain ⟨ps, hins, hr'⟩ := finalize_ok_shape r r' h
    subst hr'
    exact ⟨_, List.mem_map_of_mem _ hcat⟩

/-- A registry holding one class whose setup fails, as a witness input. -/
def regFailing : Registry :=
  { categories := ["Command"],
    registered := [{ name := "good_cmd", category := "Command", setupOk := true },
                   { name := "bad_cmd", category := "Command", setupOk := false }],
    env := Env.empty, state := .opened, namespaces := [] }

example : regFailing.finalize = .error (.PluginInitError "bad_cmd") := by decide

/-- C4 witness: `regFailing` is open and contains a failing class, so its
finalize aborts with a `PluginInitError` naming a failing class. -/
theorem finalize_all_or_nothing_witness :
    regFailing.state = .opened ∧
    (((∃ c ∈ regFailing.registered, c.setupOk = false) →
      ∃ name, regFailing.finalize = .error (.PluginInitError name) ∧
        ∃ c ∈ regFailing.registered, c.name = name ∧ c.setupOk = false) ∧
     (∀ r', regFailing.finalize = .ok r' →
       ∀ cat ∈ regFailing.categories, ∃ ns, (cat, ns) ∈ r'.namespaces)) :=
  ⟨rfl, finalize_all_or_nothing regFailing rfl⟩

/-- Name uniqueness within each category, as a pairwise condition on the
registered classes. -/
def Registry.namesUnique (r : Registry) : Prop :=
  r.registered.Pairwise (fun a b => a.category = b.category → a.name ≠ b.name)

/-- C6: on an open registry with no class yet under `c1`'s category/name, the
first register succeeds and registering a second distinct class with the
same derived name in the same category fails with `DuplicateNameError`;
per-category name uniqueness is preserved. -/
theorem register_duplicate_name_fails (r : Registry) (c1 c2 : PluginClass)
    (hs : r.state = .opened)
    (hcat : c2.category = c1.category) (hname : c2.name = c1.name)
    (hfresh : r.registered.any
      (fun d => d.category == c1.category && d.name == c1.name) = false) :
    ∃ r1, r.register c1 = .ok r1 ∧
      r1.register c2 = .error .DuplicateNameError ∧
      (r.namesUnique → r1.namesUnique) := by
  have hnotfin : ¬(r.state = .finalized) := by simp [hs]
  refine ⟨{ r with registered := r.registered ++ [c1] }, ?_, ?_, ?_⟩
  · simp [Registry.register, hnotfin, hfresh]
  · have hany : (r.registered ++ [c1]).any
        (fun d => d.category == c2.category && d.name == c2.name) = true := by
      rw [List.any_append]
      have h1 : [c1].any (fun d => d.category == c2.category && d.name == c2.name) = true := by
        simp [hcat, hname]
      rw [h1, Bool.or_true]
    simp [Registry.register, hnotfin, hany]
  · intro hu
    unfold Registry.namesUnique at hu ⊢
    simp only []
    rw [List.pairwise_append]
    refine ⟨hu, List.pairwise_singleton _ _, ?_⟩
    intro a ha b hb
    have hb1 : b = c1 := by simpa using hb
    subst hb1
    intro hcateq
    have := List.any_eq_false.mp hfresh a ha
    simp only [Bool.and_eq_true, beq_iff_eq, not_and] at this
    exact fun hn => this (by rw [hcateq]) hn

/-- The example command class used in witnesses for registration. -/
def clsA : PluginClass := { name := "my_cmd", category := "Command", setupOk := true }

/-- A second, distinct class deriving the same name in the same category. -/
def clsB : PluginClass := { name := "my_cmd", category := "Command", setupOk := false }

/-- C6 witness: on the fresh singleton `api`, registering `clsA` succeeds and
registering `clsB` (same derived name, same category) then fails with
`DuplicateNameError`. -/
theorem register_duplicate_name_fails_witness :
    (api.state = .opened ∧ clsB.category = clsA.category ∧ clsB.name = clsA.name ∧
     api.registered.any
       (fun d => d.category == clsA.category && d.name == clsA.name) = false) ∧
    ∃ r1, api.register clsA = .ok r1 ∧
      r1.register clsB = .error .DuplicateNameError ∧
      (api.namesUnique → r1.namesUnique) :=
  ⟨⟨rfl, rfl, rfl, rfl⟩,
   register_duplicate_name_fails api clsA clsB rfl rfl rfl rfl⟩

/-- C10: `create_api` always builds a fresh open registry accepting exactly
the seven base plugin classes, and sets the environment key `mode` to its
argument exactly when that argument is not `None`; the module singleton
`api` is created with `mode=None`, so it has no `mode` key, while the
default argument `'dummy'` does set one. -/
theorem create_api_properties (m : Option String) :
    (create_api m).categories =
      ["Command", "Object", "Method", "Property", "Application", "Backend",
       "Context"] ∧
    (create_api m).env.get "mode" = m.map Value.vstr ∧
    (create_api m).registered = [] ∧
    (create_api m).state = .opened ∧
    api = create_api none ∧
    api.env.get "mode" = none ∧
    create_api_default.env.get "mode" = some (.vstr "dummy") := by
  cases m with
  | none => exact ⟨rfl, rfl, rfl, rfl, rfl, rfl, by decide⟩
  | some s =>
    refine ⟨rfl, ?_, rfl, rfl, rfl, rfl, by decide⟩
    simp [create_api, baseCategories, Env.set, Env.contains, Env.get, Env.empty]

/-- C1: when an invocation resolves all parameters (the pipeline succeeds),
the dispatch reads the execution-context flag exactly once, after
validation: with `in_server` true the local execute path runs and its result
is returned, with it false the forward path runs instead, and exactly one of
the two paths runs — never both. -/
theorem dispatch_reads_flag_once_after_validation (c : Command) (env : Env)
    (pos : List Value) (named : List (String × Value)) (b : Bool) (v : Value)
    (tr : List Event)
    (hflag : env.get "in_server" = some (.vbool b))
    (hcall : c.call env pos named = (.ok v, tr)) :
    tr.count .executed + tr.count .forwarded = 1 ∧
    tr.count (.readFlag true) + tr.count (.readFlag false) = 1 ∧
    (b = true → tr = [.validated, .readFlag true, .executed] ∧
      ∃ kw, v = c.execute kw) ∧
    (b = false → tr = [.validated, .readFlag false, .forwarded] ∧
      ∃ kw, v = c.forward kw) := by
  cases hm : c.mergeKw pos named with
  | error e => simp [Command.call, hm] at hcall
  | ok kw0 =>
    simp only [Command.call, hm] at hcall
    cases hc : c.convertKw (c.normalizeKw kw0) with
    | error e => simp [hc] at hcall
    | ok kw2 =>
      simp only [hc] at hcall
      cases hd : c.get_default kw2 with
      | error e => simp [hd] at hcall
      | ok defs =>
        simp only [hd] at hcall
        cases hv : c.validateKw (kw2 ++ defs) with
        | error e => simp [hv] at hcall
        | ok u =>
          simp only [hv] at hcall
          rw [hflag] at hcall
          cases b with
          | true =>
            rw [if_pos rfl] at hcall
            rw [Prod.mk.injEq] at hcall
            obtain ⟨h1, h2⟩ := hcall
            have hv' : v = c.execute (kw2 ++ defs) := (Except.ok.inj h1).symm
            subst h2
            refine ⟨by decide, by decide, fun _ => ⟨rfl, kw2 ++ defs, hv'⟩, ?_⟩
            intro hb
            exact absurd hb (by decide)
          | false =>
            rw [if_neg (by decide)] at hcall
            rw [Prod.mk.injEq] at hcall
            obtain ⟨h1, h2⟩ := hcall
            have hv' : v = c.forward (kw2 ++ defs) := (Except.ok.inj h1).symm
            subst h2
            refine ⟨by decide, by decide, ?_, fun _ => ⟨rfl, kw2 ++ defs, hv'⟩⟩
            intro hb
            exact absurd hb (by decide)

/-- C1 witness: the tutorial command whose `execute` returns
`"in_server=True; execute() was called."` — with the flag true the call
yields exactly that string via the execute path, read once after
validation. -/
theorem dispatch_reads_flag_once_after_validation_witness :
    envInServer.get "in_server" = some (.vbool true) ∧
    my_command.call envInServer [] [] =
      (.ok (.vstr "in_server=True; execute() was called."),
       [.validated, .readFlag true, .executed]) ∧
    ([Event.validated, .readFlag true, .executed].count .executed +
       [Event.validated, .readFlag true, .executed].count .forwarded = 1 ∧
     [Event.validated, .readFlag true, .executed].count (.readFlag true) +
       [Event.validated, .readFlag true, .executed].count (.readFlag false) = 1 ∧
     (true = true → [Event.validated, .readFlag true, .executed] =
        [.validated, .readFlag true, .executed] ∧
      ∃ kw, Value.vstr "in_server=True; execute() was called." =
        my_command.execute kw) ∧
     (true = false → [Event.validated, .readFlag true, .executed] =
        [.validated, .readFlag false, .forwarded] ∧
      ∃ kw, Value.vstr "in_server=True; execute() was called." =
        my_command.forward kw)) :=
  ⟨rfl, rfl,
   dispatch_reads_flag_once_after_validation my_command envInServer [] [] true
     (.vstr "in_server=True; execute() was called.")
     [.validated, .readFlag true, .executed] rfl rfl⟩

/-- C2: the pipeline stages run in the fixed order normalize, convert,
default resolution, validate (the invocation result is exactly their
sequential composition); a derived default passes through its parameter's
normalization; and on the `create_player` doctest, `first="Jason"`,
`last="DeRose"` makes the lowercase-normalized nickname default resolve to
`"jderose"` (with `points` taking its static default `0`), `" 1000  "`
converts to integer `1000`, and `"NickName"` normalizes to `"nickname"`. -/
theorem pipeline_stage_order_and_derived_default_normalized
    (p : Param) (kw : List (String × Value)) (deps : List String)
    (f : List Value → Option Value) (vals : List Value) (d : Value)
    (h1 : p.default = none) (h2 : p.default_from = some (deps, f))
    (h3 : lookupAll kw deps = some vals) (h4 : f vals = some d) :
    p.computeDefault kw = .ok (some (p.applyNorm d)) ∧
    (∀ (c : Command) (env : Env) (pos : List Value)
       (named : List (String × Value)) (kw0 : List (String × Value)),
       c.mergeKw pos named = .ok kw0 →
       (c.call env pos named).1 =
         (c.convertKw (c.normalizeKw kw0)).bind (fun kw2 =>
           (c.get_default kw2).bind (fun ds =>
             (c.validateKw (kw2 ++ ds)).map (fun _ =>
               if env.get "in_server" = some (.vbool true) then
                 c.execute (kw2 ++ ds)
               else c.forward (kw2 ++ ds))))) ∧
    create_player.normalizeKw [("nick", .vstr "NickName")] =
      [("nick", .vstr "nickname")] ∧
    create_player.convertKw [("points", .vstr " 1000  ")] =
      .ok [("points", .vint 1000)] ∧
    create_player.get_default
      [("first", .vstr "Jason"), ("last", .vstr "DeRose")] =
      .ok [("nick", .vstr "jderose"), ("points", .vint 0)] := by
  refine ⟨?_, ?_, by decide, by decide, by decide⟩
  · simp [Param.computeDefault, h1, h2, h3, h4]
  · intro c env pos named kw0 hm
    simp only [Command.call, hm]
    cases hc : c.convertKw (c.normalizeKw kw0) with
    | error e => simp [Except.bind]
    | ok kw2 =>
      simp only [Except.bind]
      cases hd : c.get_default kw2 with
      | error e => simp [Except.bind]
      | ok ds =>
        simp only [Except.bind]
        cases hv : c.validateKw (kw2 ++ ds) with
        | error e => simp [Except.map]
        | ok u =>
          simp only [Except.map]
          by_cases hflag : env.get "in_server" = some (.vbool true)
          · rw [if_pos hflag, if_pos hflag]
          · rw [if_neg hflag, if_neg hflag]

/-- C2 witness: the nickname parameter of `create_player`, given
`first="Jason"` and `last="DeRose"`, derives `"JDeRose"` and resolves to its
lowercase normalization. -/
theorem pipeline_stage_order_witness :
    pNick.default = none ∧
    pNick.default_from = some (["first", "last"], nickFrom) ∧
    lookupAll [("first", .vstr "Jason"), ("last", .vstr "DeRose")]
      ["first", "last"] = some [.vstr "Jason", .vstr "DeRose"] ∧
    nickFrom [.vstr "Jason", .vstr "DeRose"] = some (.vstr "JDeRose") ∧
    pNick.computeDefault [("first", .vstr "Jason"), ("last", .vstr "DeRose")] =
      .ok (some (pNick.applyNorm (.vstr "JDeRose"))) :=
  ⟨rfl, rfl, by decide, by decide,
   (pipeline_stage_order_and_derived_default_normalized pNick
     [("first", .vstr "Jason"), ("last", .vstr "DeRose")] ["first", "last"]
     nickFrom [.vstr "Jason", .vstr "DeRose"] (.vstr "JDeRose")
     rfl rfl (by decide) (by decide)).1⟩

example : pNick.applyNorm (.vstr "JDeRose") = .vstr "jderose" := by decide

theorem normalizeKw_keys (c : Command) (kw : List (String × Value)) :
    (c.normalizeKw kw).map Prod.fst = kw.map Prod.fst := by
  unfold Command.normalizeKw
  rw [List.map_map]
  apply List.map_congr_left
  intro x hx
  cases hfp : c.findParam x.1 <;> simp [hfp]

theorem convertKw_keys (c : Command) (kw kw' : List (String × Value))
    (h : c.convertKw kw = .ok kw') : kw'.map Prod.fst = kw.map Prod.fst := by
  induction kw generalizing kw' with
  | nil =>
    simp only [Command.convertKw] at h
    obtain rfl := Except.ok.inj h
    rfl
  | cons x rest ih =>
    simp only [Command.convertKw] at h
    cases hfp : c.findParam x.1 with
    | some p =>
      simp only [hfp] at h
      cases hcv : convertValue p.ptype x.2 with
      | none => simp [hcv] at h
      | some w =>
        simp only [hcv] at h
        cases hrec : c.convertKw rest with
        | error e => simp [hrec] at h
        | ok ws =>
          simp only [hrec] at h
          obtain rfl := Except.ok.inj h
          simp [ih ws hrec]
    | none =>
      simp only [hfp] at h
      cases hrec : c.convertKw rest with
      | error e => simp [hrec] at h
      | ok ws =>
        simp only [hrec] at h
        obtain rfl := Except.ok.inj h
        simp [ih ws hrec]

theorem computeDefaults_keys (ps : List Param) (kw ds : List (String × Value))
    (h : computeDefaults ps kw = .ok ds) :
    ∀ x ∈ ds, ∃ q ∈ ps, x.1 = q.name ∧
      ¬(q.default = none ∧ q.default_from = none) := by
  induction ps generalizing kw ds with
  | nil =>
    simp only [computeDefaults] at h
    obtain rfl := Except.ok.inj h
    simp
  | cons p rest ih =>
    simp only [computeDefaults] at h
    by_cases hset : (lookupKw kw p.name).isSome
    · rw [if_pos hset] at h
      intro x hx
      obtain ⟨q, hq, hrest⟩ := ih kw ds h x hx
      exact ⟨q, List.mem_cons_of_mem _ hq, hrest⟩
    · rw [if_neg hset] at h
      cases hcd : p.computeDefault kw with
      | error e => simp [hcd] at h
      | ok od =>
        simp only [hcd] at h
        cases od with
        | none =>
          intro x hx
          obtain ⟨q, hq, hrest⟩ := ih kw ds h x hx
          exact ⟨q, List.mem_cons_of_mem _ hq, hrest⟩
        | some d =>
          cases hrec : computeDefaults rest (kw ++ [(p.name, d)]) with
          | error e => simp [hrec] at h
          | ok ds' =>
            simp only [hrec] at h
            obtain rfl := Except.ok.inj h
            intro x hx
            rcases List.mem_cons.mp hx with rfl | hx'
            · refine ⟨p, List.mem_cons_self _ _, rfl, ?_⟩
              rintro ⟨hd0, hf0⟩
              simp [Param.computeDefault, hd0, hf0] at hcd
            · obtain ⟨q, hq, hrest⟩ := ih (kw ++ [(p.name, d)]) ds' hrec x hx'
              exact ⟨q, List.mem_cons_of_mem _ hq, hrest⟩

theorem lookupKw_eq_none_of_keys (kw kw' : List (String × Value)) (k : String)
    (hkeys : kw'.map Prod.fst = kw.map Prod.fst)
    (h : lookupKw kw k = none) : lookupKw kw' k = none := by
  rw [lookupKw_eq_none_iff] at h ⊢
  intro x hx
  have hmem : x.1 ∈ kw'.map Prod.fst := List.mem_map_of_mem _ hx
  rw [hkeys] at hmem
  obtain ⟨y, hy, hyx⟩ := List.mem_map.mp hmem
  rw [← hyx]
  exact h y hy

theorem lookupKw_append_none (l1 l2 : List (String × Value)) (k : String)
    (h1 : lookupKw l1 k = none) (h2 : lookupKw l2 k = none) :
    lookupKw (l1 ++ l2) k = none := by
  rw [lookupKw_eq_none_iff] at h1 h2 ⊢
  intro x hx
  rcases List.mem_append.mp hx with hm | hm
  · exact h1 x hm
  · exact h2 x hm

/-- C7: a required parameter with no static default and no
default-derivation that is supplied no value makes the invocation fail with
`RequiredParameterError` (assuming the earlier stages accept the other
supplied values), producing an empty event trace: neither the execute path
nor the forward path runs. -/
theorem required_param_fails_before_dispatch (c : Command) (env : Env)
    (pos : List Value) (named : List (String × Value)) (p : Param)
    (kw0 kw2 defs : List (String × Value))
    (hnodup : c.params.Pairwise (fun a b => a.name ≠ b.name))
    (hp : p ∈ c.params) (hreq : p.required = true)
    (hdef : p.default = none) (hfrom : p.default_from = none)
    (hm : c.mergeKw pos named = .ok kw0)
    (hun : lookupKw kw0 p.name = none)
    (hc : c.convertKw (c.normalizeKw kw0) = .ok kw2)
    (hd : c.get_default kw2 = .ok defs) :
    ∃ q, c.call env pos named = (.error (.RequiredParameterError q), []) := by
  have hkeys2 : kw2.map Prod.fst = kw0.map Prod.fst := by
    rw [convertKw_keys c _ kw2 hc, normalizeKw_keys]
  have hun2 : lookupKw kw2 p.name = none :=
    lookupKw_eq_none_of_keys kw0 kw2 p.name hkeys2 hun
  have hdefs : lookupKw defs p.name = none := by
    rw [lookupKw_eq_none_iff]
    intro x hx hxk
    obtain ⟨q, hq, hqname, hqdef⟩ := computeDefaults_keys c.params kw2 defs hd x hx
    have hqp : q = p := by
      by_contra hne
      have hsym : Symmetric (fun a b : Param => a.name ≠ b.name) :=
        fun a b hab hba => hab hba.symm
      exact List.Pairwise.forall hsym hnodup hq hp hne (by rw [← hqname, hxk])
    rw [hqp] at hqdef
    exact hqdef ⟨hdef, hfrom⟩
  have hun3 : lookupKw (kw2 ++ defs) p.name = none :=
    lookupKw_append_none kw2 defs p.name hun2 hdefs
  have hfind : (c.params.find?
      (fun q => q.required && (lookupKw (kw2 ++ defs) q.name).isNone)).isSome :=
    List.find?_isSome.mpr ⟨p, hp, by simp [hreq, hun3]⟩
  obtain ⟨q, hq⟩ := Option.isSome_iff_exists.mp hfind
  refine ⟨q.name, ?_⟩
  simp only [Command.call, hm, hc, hd, Command.validateKw, hq]

/-- The required positional parameter of the witness command. -/
def pProgrammer : Param :=
  { name := "programmer", required := true, ptype := .tstr,
    normalize := none, default := none, default_from := none }

/-- Witness command declaring one required parameter with no default. -/
def nudge_required : Command :=
  { name := "nudge", args := [pProgrammer], options := [],
    execute := fun _ => .vstr "exec", forward := fun _ => .vstr "fwd" }

example : nudge_required.call envInServer [] [] =
    (.error (.RequiredParameterError "programmer"), []) := by decide

/-- C7 witness: invoking `nudge_required` with nothing supplied fails with
`RequiredParameterError` and an empty trace — no dispatch happened. -/
theorem required_param_fails_before_dispatch_witness :
    (pProgrammer ∈ nudge_required.params ∧ pProgrammer.required = true ∧
     pProgrammer.default = none ∧ pProgrammer.default_from = none ∧
     nudge_required.mergeKw [] [] = .ok [] ∧
     lookupKw [] pProgrammer.name = none ∧
     nudge_required.convertKw (nudge_required.normalizeKw []) = .ok [] ∧
     nudge_required.get_default [] = .ok []) ∧
    ∃ q, nudge_required.call envInServer [] [] =
      (.error (.RequiredParameterError q), []) :=
  ⟨⟨by simp [Command.params, nudge_required], rfl, rfl, rfl, rfl, rfl, rfl, rfl⟩,
   required_param_fails_before_dispatch nudge_required envInServer [] []
     pProgrammer [] [] []
     (by simp [Command.params, nudge_required])
     (by simp [Command.params, nudge_required])
     rfl rfl rfl rfl rfl rfl rfl⟩
